import Mathlib

/-!
Verification of the commission-validation core: the tiered-rate rule store
(`RulesManager` in `src/managers.py`), the per-record validator
(`CommissionValidator` in `src/validators.py`) and the batch metrics
(`DataAnalyzer.calculate_metrics` in `src/analyzers.py`).

Modelling conventions:
* Python floats are modelled as exact rationals (`ℚ`); the numeric literals
  of the source (`0.05`, `1.2`, `1.1`, `0.15`, `0.001`) become the
  corresponding rationals.
* The session-state dict `st.session_state.commission_rules` is modelled as
  an association list `List (String × TierPolicy)` (insertion-ordered, like
  a Python dict); the session cell itself, where initialization is
  concerned, is an `Option Rules`.
* Result messages (f-strings in the source) are modelled as an inductive
  `Msg` naming the branch that produced them, carrying the interpolated
  tier name.
* Validation issues (strings in the source) are modelled as an inductive
  `Issue`; the rate-mismatch issue carries the two rates rounded to three
  decimal places, mirroring the `:.3f` formatting of the source message.
-/

/-- One entry of the commission-rules mapping, holding a rate and a
threshold. `rate` is a float in the source, `threshold` an int —
`int(threshold)` at insertion; the seeded defaults are integer literals. -/
structure TierPolicy where
  rate : ℚ
  threshold : ℤ
  deriving DecidableEq, Repr

/-- The policy set `st.session_state.commission_rules`: tier name → policy. -/
abbrev Rules := List (String × TierPolicy)

/-- Key lookup in the rules mapping (`rules[tier]` / `tier in rules`). -/
def lookupRule : Rules → String → Option TierPolicy
  | [], _ => none
  | (n, p) :: rest, t => if n = t then some p else lookupRule rest t

/-- The keys of the policy set (`rules.keys()`). -/
def tierNames (rules : Rules) : List String := rules.map Prod.fst

/-- The default policy set seeded by `RulesManager._initialize_rules`. -/
def defaultRules : Rules :=
  [("standard", ⟨5/100, 0⟩),
   ("premium", ⟨7/100, 100000⟩),
   ("enterprise", ⟨10/100, 500000⟩)]

/-- Model of `RulesManager._initialize_rules`: seed the session cell with
`defaultRules` only if no policy set is present, else leave it untouched. -/
def initRules : Option Rules → Option Rules
  | none => some defaultRules
  | some r => some r

/-- One row of input data; only the fields read by the validator are typed
numerically, the rest are carried as opaque strings. -/
structure DealRecord where
  deal_id : String
  sales_rep : String
  region : String
  product_tier : String
  deal_size : ℚ
  commission_rate : ℚ
  commission_amount : ℚ
  deriving DecidableEq, Repr

/-- Round to three decimal places, as the `:.3f` format of the source
message does (ties are immaterial to the claims). -/
def roundTo3 (q : ℚ) : ℚ := (⌊q * 1000 + 1/2⌋ : ℚ) / 1000

/-- A single validation issue emitted by `CommissionValidator.validate`.
`rateMismatch` carries the expected and actual rates as they appear in the
message, rounded to three decimal places. -/
inductive Issue where
  | unknownTier (tier : String)
  | rateMismatch (expected actual : ℚ)
  | capExceeded
  | negativeDealSize
  deriving DecidableEq, Repr

/-- Model of `CommissionValidator._get_expected_rate`: look up the base
rate of the tier, apply the 10% accelerator when
`deal_size > threshold * 1.2`. Returns `none` when the tier is absent (the
source would raise `KeyError`; `validate` guarantees presence before
calling). -/
def get_expected_rate (rules : Rules) (deal_size : ℚ) (product_tier : String) :
    Option ℚ :=
  (lookupRule rules product_tier).map fun p =>
    if deal_size > (p.threshold : ℚ) * (6/5) then p.rate * (11/10) else p.rate

/-- Model of `CommissionValidator.validate`: unknown tier short-circuits with one
issue; otherwise the rate-mismatch, 15%-cap and negative-deal-size checks
run in that order, each appending its issue when its condition holds. -/
def validate (rules : Rules) (row : DealRecord) : List Issue :=
  match lookupRule rules row.product_tier with
  | none => [Issue.unknownTier row.product_tier]
  | some p =>
    let expected_rate :=
      if row.deal_size > (p.threshold : ℚ) * (6/5) then p.rate * (11/10) else p.rate
    (if |row.commission_rate - expected_rate| > 1/1000 then
        [Issue.rateMismatch (roundTo3 expected_rate) (roundTo3 row.commission_rate)]
      else [])
    ++ (if row.commission_amount > row.deal_size * (15/100) then
        [Issue.capExceeded] else [])
    ++ (if row.deal_size < 0 then [Issue.negativeDealSize] else [])

/-- The message variants returned by `add_rule` / `remove_rule`, one per
f-string of the source, carrying the interpolated tier name. -/
inductive Msg where
  | addedOk (tier : String)
  | missingName
  | alreadyExists (tier : String)
  | removedOk (tier : String)
  | notFound (tier : String)
  | cannotRemoveLast
  deriving DecidableEq, Repr

/-- The outcome of a mutating `RulesManager` call: the policy set after the
call together with the `(success, message)` pair the source returns. -/
structure MutResult where
  rules : Rules
  success : Bool
  msg : Msg
  deriving Repr

/-- Python `int()` on a float: truncation toward zero. -/
def pyInt (q : ℚ) : ℤ := if 0 ≤ q then ⌊q⌋ else ⌈q⌉

/-- Truthiness of `tier_name.strip()`: the string stripped of leading and
trailing whitespace is non-empty, i.e. some character is non-whitespace. -/
def stripNonempty (s : String) : Bool := s.data.any fun c => !c.isWhitespace

/-- Model of `RulesManager.add_rule`: insert the entry of rate
`float(rate)` and threshold `int(threshold)` under `tier_name` when the
stripped name is non-empty and the name is not already a key; otherwise
fail with the matching message and leave the policy set unchanged. -/
def add_rule (rules : Rules) (tier_name : String) (rate : ℚ) (threshold : ℚ) :
    MutResult :=
  if stripNonempty tier_name ∧ lookupRule rules tier_name = none then
    { rules := rules ++ [(tier_name, ⟨rate, pyInt threshold⟩)],
      success := true, msg := Msg.addedOk tier_name }
  else if ¬ stripNonempty tier_name then
    { rules := rules, success := false, msg := Msg.missingName }
  else
    { rules := rules, success := false, msg := Msg.alreadyExists tier_name }

/-- Deletion of a key from the mapping (`del st.session_state.commission_rules[tier_name]`). -/
def removeKey : Rules → String → Rules
  | [], _ => []
  | e :: rest, t => if e.1 = t then removeKey rest t else e :: removeKey rest t

/-- Model of `RulesManager.remove_rule`: refuse whenever at most one rule remains;
otherwise delete the entry if present, else report not-found. -/
def remove_rule (rules : Rules) (tier_name : String) : MutResult :=
  if rules.length > 1 then
    if lookupRule rules tier_name ≠ none then
      { rules := removeKey rules tier_name,
        success := true, msg := Msg.removedOk tier_name }
    else
      { rules := rules, success := false, msg := Msg.notFound tier_name }
  else
    { rules := rules, success := false, msg := Msg.cannotRemoveLast }

/-- One user-initiated mutation of the policy set. -/
inductive RuleOp where
  | add (tier_name : String) (rate : ℚ) (threshold : ℚ)
  | remove (tier_name : String)

/-- The policy set after one mutation (the `(success, message)` pair is
discarded; the stored rules are what the next call sees). -/
def applyOp (rules : Rules) (op : RuleOp) : Rules :=
  match op with
  | .add t r th => (add_rule rules t r th).rules
  | .remove t => (remove_rule rules t).rules

/-- The policy set after a finite sequence of mutations. -/
def applyOps (rules : Rules) (ops : List RuleOp) : Rules :=
  ops.foldl applyOp rules

/-- The metrics snapshot returned by `DataAnalyzer.calculate_metrics`.
`average_rate` of an empty batch is NaN in pandas; the rational model
yields `0` there (division by zero), which no claim relies on. -/
structure Metrics where
  total_commissions : ℚ
  average_rate : ℚ
  total_deals : ℕ
  flagged_count : ℕ
  deriving DecidableEq, Repr

/-- Model of `DataAnalyzer.calculate_metrics`: sums, mean, record count, and the
total number of issues across all records of the batch. -/
def calculate_metrics (rules : Rules) (df : List DealRecord) : Metrics :=
  { total_commissions := (df.map DealRecord.commission_amount).sum,
    average_rate := (df.map DealRecord.commission_rate).sum / df.length,
    total_deals := df.length,
    flagged_count := (df.map fun r => (validate rules r).length).sum }

/-! ### Helper lemmas about `lookupRule` -/

theorem lookupRule_eq_none_iff (rules : Rules) (t : String) :
    lookupRule rules t = none ↔ t ∉ tierNames rules := by
  induction rules with
  | nil => simp [lookupRule, tierNames]
  | cons e rest ih =>
    obtain ⟨n, p⟩ := e
    by_cases h : n = t
    · simp [lookupRule, tierNames, h, eq_comm, ih]
    · simp [lookupRule, tierNames, h, eq_comm, ih]
      simp [tierNames] at ih
      tauto

theorem lookupRule_append_singleton (rules : Rules) (t : String) (p : TierPolicy)
    (h : lookupRule rules t = none) :
    lookupRule (rules ++ [(t, p)]) t = some p := by
  induction rules with
  | nil => simp [lookupRule]
  | cons e rest ih =>
    obtain ⟨n, q⟩ := e
    by_cases hn : n = t
    · simp [lookupRule, hn] at h
    · simp [lookupRule, hn] at h ⊢
      exact ih h

theorem lookupRule_removeKey_self (rules : Rules) (t : String) :
    lookupRule (removeKey rules t) t = none := by
  induction rules with
  | nil => simp [removeKey, lookupRule]
  | cons e rest ih =>
    obtain ⟨n, p⟩ := e
    by_cases hn : n = t <;> simp [removeKey, hn, lookupRule, ih]

theorem lookupRule_removeKey_other (rules : Rules) (t s : String) (h : s ≠ t) :
    lookupRule (removeKey rules t) s = lookupRule rules s := by
  induction rules with
  | nil => simp [removeKey]
  | cons e rest ih =>
    obtain ⟨n, p⟩ := e
    by_cases hn : n = t
    · subst hn
      have hns : ¬ n = s := fun hc => h hc.symm
      simp [removeKey, lookupRule, hns, ih]
    · by_cases hs : n = s
      · subst hs
        simp [removeKey, hn, lookupRule]
      · simp [removeKey, hn, lookupRule, hs, ih]

theorem removeKey_sublist (rules : Rules) (t : String) :
    (removeKey rules t).Sublist rules := by
  induction rules with
  | nil => simp [removeKey]
  | cons e rest ih =>
    by_cases hn : e.1 = t
    · exact (by simp [removeKey, hn] : removeKey (e :: rest) t = removeKey rest t) ▸
        ih.trans (List.sublist_cons_self e rest)
    · simpa [removeKey, hn] using ih.cons₂ e

theorem removeKey_of_not_mem (rules : Rules) (t : String)
    (h : t ∉ tierNames rules) : removeKey rules t = rules := by
  induction rules with
  | nil => simp [removeKey]
  | cons e rest ih =>
    simp [tierNames] at h
    push_neg at h
    simp [removeKey, h.1.symm, ih (by simp [tierNames]; exact fun a ha => h.2 a ha)]

/-! ### Claim theorems -/

/-- C9: RuleStore initialization is idempotent — initializing twice from any
session state equals initializing once; an existing policy set is left
untouched and an absent one is seeded with the default mapping. -/
theorem initRules_idempotent (s : Option Rules) :
    initRules (initRules s) = initRules s
    ∧ (∀ r : Rules, initRules (some r) = some r)
    ∧ initRules none = some defaultRules := by
  refine ⟨?_, fun r => rfl, rfl⟩
  cases s <;> rfl

/-- C3: a record whose product tier is not a key of the policy set yields
exactly the single unknown-tier issue naming that tier, whatever the other
fields hold; no further check runs. -/
theorem validate_unknown_tier (rules : Rules) (row : DealRecord)
    (h : row.product_tier ∉ tierNames rules) :
    validate rules row = [Issue.unknownTier row.product_tier] := by
  have hl := (lookupRule_eq_none_iff rules row.product_tier).mpr h
  simp [validate, hl]

theorem validate_unknown_tier_witness :
    validate defaultRules
      { deal_id := "D9", sales_rep := "B", region := "E",
        product_tier := "gold", deal_size := -5, commission_rate := 9,
        commission_amount := 99 } = [Issue.unknownTier "gold"] :=
  validate_unknown_tier defaultRules _ (by decide)

/-- C2: for a tier present in the policy set, the expected rate is the base
rate times 1.1 when `deal_size > threshold * 1.2`, else the base rate; at
a tier of rate 0.05 and threshold 100000 the boundary deal 120000 keeps rate
0.05 (strict comparison) while 120001 yields 0.055. -/
theorem get_expected_rate_spec (rules : Rules) (deal_size : ℚ) (t : String)
    (p : TierPolicy) (hp : lookupRule rules t = some p) :
    get_expected_rate rules deal_size t =
      some (if deal_size > (p.threshold : ℚ) * (6/5) then p.rate * (11/10)
            else p.rate)
    ∧ get_expected_rate [("gold", ⟨5/100, 100000⟩)] 120000 "gold" = some (5/100)
    ∧ get_expected_rate [("gold", ⟨5/100, 100000⟩)] 120001 "gold" = some (55/1000) := by
  refine ⟨by simp [get_expected_rate, hp], ?_, ?_⟩
  · norm_num [get_expected_rate, lookupRule]
  · norm_num [get_expected_rate, lookupRule]

theorem get_expected_rate_spec_witness :
    get_expected_rate defaultRules 50000 "premium" = some (7/100) := by
  have h := (get_expected_rate_spec defaultRules 50000 "premium" ⟨7/100, 100000⟩
    (by norm_num +decide [lookupRule, defaultRules])).1
  rw [h]
  norm_num

/-- C1: for a record whose tier is a key of the policy set, validate emits
the rate-mismatch issue iff the actual rate differs from the expected rate
by more than 0.001, then the fixed 15%-cap issue iff commission_amount
exceeds 15% of deal_size, then the fixed negative-deal-size issue iff
deal_size < 0, in that order; the result is empty iff all three checks
pass. -/
theorem validate_known_tier (rules : Rules) (row : DealRecord) (e : ℚ)
    (he : get_expected_rate rules row.deal_size row.product_tier = some e) :
    validate rules row =
      (if |row.commission_rate - e| > 1/1000 then
          [Issue.rateMismatch (roundTo3 e) (roundTo3 row.commission_rate)]
        else [])
      ++ (if row.commission_amount > row.deal_size * (15/100) then
          [Issue.capExceeded] else [])
      ++ (if row.deal_size < 0 then [Issue.negativeDealSize] else [])
    ∧ (validate rules row = [] ↔
        |row.commission_rate - e| ≤ 1/1000
        ∧ row.commission_amount ≤ row.deal_size * (15/100)
        ∧ 0 ≤ row.deal_size) := by
  cases hl : lookupRule rules row.product_tier with
  | none => simp [get_expected_rate, hl] at he
  | some p =>
    simp [get_expected_rate, hl] at he
    subst he
    refine ⟨by simp [validate, hl], ?_⟩
    simp only [validate, hl]
    split_ifs <;> simp_all [not_lt]

theorem validate_known_tier_witness :
    validate defaultRules
      { deal_id := "D2", sales_rep := "A", region := "W",
        product_tier := "standard", deal_size := 10000,
        commission_rate := 55/1000, commission_amount := 2000 } =
      [Issue.capExceeded] := by
  have h := (validate_known_tier defaultRules
    { deal_id := "D2", sales_rep := "A", region := "W",
      product_tier := "standard", deal_size := 10000,
      commission_rate := 55/1000, commission_amount := 2000 } (55/1000)
    (by norm_num +decide [get_expected_rate, lookupRule, defaultRules])).1
  rw [h]
  norm_num [roundTo3]

/-- C8: the metrics snapshot sums issue counts into flagged_count (not the
number of failing records — witnessed by a batch whose single record carries
three issues), sums commission amounts into total_commissions and counts
records into total_deals. -/
theorem calculate_metrics_spec (rules : Rules) (df : List DealRecord) :
    (calculate_metrics rules df).flagged_count
        = (df.map fun r => (validate rules r).length).sum
    ∧ (calculate_metrics rules df).total_commissions
        = (df.map DealRecord.commission_amount).sum
    ∧ (calculate_metrics rules df).total_deals = df.length
    ∧ ∃ (rules2 : Rules) (df2 : List DealRecord),
        (calculate_metrics rules2 df2).flagged_count
          ≠ (df2.filter fun r => !(validate rules2 r).isEmpty).length := by
  refine ⟨rfl, rfl, rfl, defaultRules,
    [{ deal_id := "D0", sales_rep := "A", region := "W",
       product_tier := "standard", deal_size := -100,
       commission_rate := 9, commission_amount := 100 }], ?_⟩
  norm_num +decide [calculate_metrics, validate, lookupRule, defaultRules,
    roundTo3, List.filter, lt_abs]

/-- C10: whenever add_rule or remove_rule fails, the policy set after the
call is exactly the policy set before the call. -/
theorem failed_mutation_atomic (rules : Rules) (t : String) (r th : ℚ) :
    ((add_rule rules t r th).success = false →
      (add_rule rules t r th).rules = rules)
    ∧ ((remove_rule rules t).success = false →
      (remove_rule rules t).rules = rules) := by
  constructor
  · intro h
    unfold add_rule at h ⊢
    split_ifs at h ⊢ <;> simp_all
  · intro h
    unfold remove_rule at h ⊢
    split_ifs at h ⊢ <;> simp_all

theorem failed_mutation_atomic_witness :
    (add_rule defaultRules "" 1 1).rules = defaultRules
    ∧ (remove_rule defaultRules "gold").rules = defaultRules :=
  ⟨(failed_mutation_atomic defaultRules "" 1 1).1 (by decide),
   (failed_mutation_atomic defaultRules "gold" 1 1).2 (by decide)⟩

/-- C6: add_rule fails exactly when the name strips to empty (missing-name
message) or is already a key (duplicate message); it succeeds in every
other case, and a failure inserts nothing. -/
theorem add_rule_failure_cases (rules : Rules) (t : String) (r th : ℚ) :
    ((add_rule rules t r th).success = false ↔
      stripNonempty t = false ∨ lookupRule rules t ≠ none)
    ∧ (stripNonempty t = false → (add_rule rules t r th).msg = Msg.missingName)
    ∧ (stripNonempty t = true → lookupRule rules t ≠ none →
        (add_rule rules t r th).msg = Msg.alreadyExists t)
    ∧ ((add_rule rules t r th).success = false →
        (add_rule rules t r th).rules = rules) := by
  unfold add_rule
  split_ifs with h1 h2 <;> simp_all

theorem add_rule_failure_cases_witness :
    (add_rule defaultRules " " 1 1).msg = Msg.missingName
    ∧ (add_rule defaultRules "standard" 1 1).msg = Msg.alreadyExists "standard" :=
  ⟨(add_rule_failure_cases defaultRules " " 1 1).2.1 (by decide),
   (add_rule_failure_cases defaultRules "standard" 1 1).2.2.1 (by decide)
     (by decide)⟩

/-- C7: remove_rule refuses whenever the policy set has at most one entry,
whatever the name (last-tier message); otherwise it reports not-found for
an absent name; otherwise it succeeds, the named tier is gone and every
other tier is untouched. -/
theorem remove_rule_spec (rules : Rules) (t : String) :
    (rules.length ≤ 1 →
      (remove_rule rules t).success = false
      ∧ (remove_rule rules t).msg = Msg.cannotRemoveLast
      ∧ (remove_rule rules t).rules = rules)
    ∧ (rules.length > 1 → lookupRule rules t = none →
      (remove_rule rules t).success = false
      ∧ (remove_rule rules t).msg = Msg.notFound t
      ∧ (remove_rule rules t).rules = rules)
    ∧ (rules.length > 1 → lookupRule rules t ≠ none →
      (remove_rule rules t).success = true
      ∧ (remove_rule rules t).msg = Msg.removedOk t
      ∧ lookupRule (remove_rule rules t).rules t = none
      ∧ ∀ s, s ≠ t →
          lookupRule (remove_rule rules t).rules s = lookupRule rules s) := by
  unfold remove_rule
  split_ifs with h1 h2
  · refine ⟨fun hle => absurd h1 (by omega), fun _ hn => absurd hn h2, fun _ _ => ?_⟩
    exact ⟨rfl, rfl, lookupRule_removeKey_self rules t,
      fun s hs => lookupRule_removeKey_other rules t s hs⟩
  · exact ⟨fun hle => absurd h1 (by omega), fun _ _ => ⟨rfl, rfl, rfl⟩,
      fun _ hn => absurd hn h2⟩
  · exact ⟨fun _ => ⟨rfl, rfl, rfl⟩, fun hgt _ => absurd hgt h1,
      fun hgt _ => absurd hgt h1⟩

theorem remove_rule_spec_witness :
    (remove_rule [("standard", ⟨5/100, 0⟩)] "standard").success = false
    ∧ (remove_rule defaultRules "gold").msg = Msg.notFound "gold"
    ∧ (remove_rule defaultRules "premium").success = true :=
  ⟨((remove_rule_spec [("standard", ⟨5/100, 0⟩)] "standard").1 (by decide)).1,
   ((remove_rule_spec defaultRules "gold").2.1 (by decide) (by decide)).2.1,
   ((remove_rule_spec defaultRules "premium").2.2 (by decide) (by decide)).1⟩

/-- C5 as stated is falsified by the empty tier name: it is not a key of
the default policy set, yet add_rule fails on it. -/
theorem add_rule_new_tier_counterexample :
    lookupRule defaultRules "" = none
    ∧ (add_rule defaultRules "" (1/10) 0).success = false := by
  constructor
  · decide
  · decide

/-- C5 amended: for a tier name that is non-empty after stripping
whitespace and not currently a key of the policy set, add_rule succeeds,
appends an entry with the given rate and truncated threshold, and the tier is afterwards
retrievable with those values. -/
theorem add_rule_new_tier (rules : Rules) (t : String) (r th : ℚ)
    (hs : stripNonempty t = true) (habs : lookupRule rules t = none) :
    (add_rule rules t r th).success = true
    ∧ (add_rule rules t r th).rules = rules ++ [(t, ⟨r, pyInt th⟩)]
    ∧ lookupRule (add_rule rules t r th).rules t = some ⟨r, pyInt th⟩ := by
  unfold add_rule
  rw [if_pos (⟨hs, habs⟩ : stripNonempty t = true ∧ lookupRule rules t = none)]
  exact ⟨rfl, rfl, lookupRule_append_singleton rules t _ habs⟩

theorem add_rule_new_tier_witness :
    (add_rule defaultRules "gold" (2/10) (5/2)).success = true
    ∧ (add_rule defaultRules "gold" (2/10) (5/2)).rules
        = defaultRules ++ [("gold", ⟨2/10, 2⟩)]
    ∧ lookupRule (add_rule defaultRules "gold" (2/10) (5/2)).rules "gold"
        = some ⟨2/10, 2⟩ := by
  have hp : pyInt (5/2) = 2 := by norm_num [pyInt]
  have h := add_rule_new_tier defaultRules "gold" (2/10) (5/2)
    (by decide) (by decide)
  rw [hp] at h
  exact h

/-- One mutation preserves the invariant: a non-empty policy set with
unique tier names stays non-empty with unique names. -/
theorem applyOp_invariant (rules : Rules) (op : RuleOp)
    (hne : rules ≠ []) (hnd : (tierNames rules).Nodup) :
    applyOp rules op ≠ [] ∧ (tierNames (applyOp rules op)).Nodup := by
  cases op with
  | add t r th =>
    simp only [applyOp]
    unfold add_rule
    split_ifs with h1 h2
    · obtain ⟨hs, habs⟩ := h1
      have hmem : t ∉ rules.map Prod.fst :=
        (lookupRule_eq_none_iff rules t).mp habs
      refine ⟨by simp, ?_⟩
      show (tierNames (rules ++ [(t, ⟨r, pyInt th⟩)])).Nodup
      simp only [tierNames, List.map_append, List.map_cons, List.map_nil]
      rw [List.nodup_append]
      exact ⟨hnd, List.nodup_singleton t, by simpa using hmem⟩
    · exact ⟨hne, hnd⟩
    · exact ⟨hne, hnd⟩
  | remove t =>
    simp only [applyOp]
    unfold remove_rule
    split_ifs with h1 h2
    · refine ⟨?_, ?_⟩
      · show removeKey rules t ≠ []
        match rules, h1, hnd with
        | a :: b :: rest, _, hnd =>
          by_cases ha : a.1 = t
          · have hmem : t ∉ tierNames (b :: rest) := by
              simp only [tierNames, List.map_cons] at hnd
              rw [List.nodup_cons] at hnd
              simpa [tierNames, ha] using hnd.1
            rw [show removeKey (a :: b :: rest) t = removeKey (b :: rest) t from
                  by simp [removeKey, ha],
                removeKey_of_not_mem _ _ hmem]
            simp
          · simp [removeKey, ha]
      · show ((removeKey rules t).map Prod.fst).Nodup
        exact hnd.sublist ((removeKey_sublist rules t).map Prod.fst)
    · exact ⟨hne, hnd⟩
    · exact ⟨hne, hnd⟩

/-- C4: from any non-empty policy set with unique tier names, every finite
sequence of add_rule / remove_rule operations with arbitrary arguments
leaves the policy set non-empty with unique tier names. -/
theorem applyOps_invariant (rules : Rules) (ops : List RuleOp)
    (hne : rules ≠ []) (hnd : (tierNames rules).Nodup) :
    applyOps rules ops ≠ [] ∧ (tierNames (applyOps rules ops)).Nodup := by
  induction ops generalizing rules with
  | nil => exact ⟨hne, hnd⟩
  | cons op rest ih =>
    obtain ⟨h1, h2⟩ := applyOp_invariant rules op hne hnd
    simpa [applyOps, List.foldl_cons] using ih (applyOp rules op) h1 h2

theorem applyOps_invariant_witness :
    applyOps defaultRules
      [RuleOp.add "gold" 1 1, RuleOp.remove "standard",
       RuleOp.remove "premium", RuleOp.remove "enterprise",
       RuleOp.add " " 2 2, RuleOp.remove "gold"] ≠ []
    ∧ (tierNames (applyOps defaultRules
      [RuleOp.add "gold" 1 1, RuleOp.remove "standard",
       RuleOp.remove "premium", RuleOp.remove "enterprise",
       RuleOp.add " " 2 2, RuleOp.remove "gold"])).Nodup :=
  applyOps_invariant defaultRules
    [RuleOp.add "gold" 1 1, RuleOp.remove "standard",
     RuleOp.remove "premium", RuleOp.remove "enterprise",
     RuleOp.add " " 2 2, RuleOp.remove "gold"]
    (by simp [defaultRules]) (by decide)
